import Mathlib

/-!
Verification of the ANPM Oracle repository against its natural-language
specification.

The development shallowly embeds the TypeScript sources:

* `src/utils/AOProcess.ts` — tag codec (`obj2tags`, `toString`), result
  decoding (`getTagsFromMessage`, `getDataFromMessage`), `handleResult`
  and `execute`;
* `src/utils/hb.ts` — `extractMessage`;
* `src/utils/request.ts` — `receiveTask` (the continuation applied to the
  settled `requestHB` response);
* `src/index.ts` — the polling loop body of `main` (one iteration, with the
  network outcomes supplied by an environment record).

JavaScript dynamic values are modelled by the inductive `JsVal`.  Numbers are
modelled as integers: every number appearing in this protocol (status codes,
`n_gpu_layers`, `ctx_size`, payload fields) is an integer, and the JSON
parser model below therefore parses integer literals only.  A reference
cycle inside an object graph — something an inductive type cannot contain —
is represented by the constructor `JsVal.circular`, on which the model of
`JSON.stringify` throws, exactly as the runtime builtin does.

Fallible JavaScript code (a `throw`) is embedded as `Except`/`Option`;
`process.exit` is represented explicitly in the loop-iteration result so
that its (un)reachability is a provable fact, not an assumption.
-/

/-- Model of a JavaScript runtime value as it occurs in this program. -/
inductive JsVal where
  | undef
  | null
  | bool (b : Bool)
  | num (n : Int)
  | str (s : String)
  | arr (elems : List JsVal)
  | obj (fields : List (String × JsVal))
  | circular
deriving Repr

/-- Model of a JavaScript exception as thrown by the embedded code. -/
inductive JsError where
  | error (msg : String)
  | typeError (msg : String)
  | parseFail
deriving DecidableEq, Repr

/-- Decimal rendering of an integer, matching `Number.prototype.toString`
on integral values. -/
def intDec (n : Int) : String := toString n

/-- Comma join, as used by `JSON.stringify` and `Array.prototype.join`. -/
def joinComma (parts : List String) : String := String.intercalate "," parts

/-- JSON escaping of a single character, as performed by `JSON.stringify`. -/
def jsonEscapeChar (c : Char) : String :=
  if c = '"' then "\\\""
  else if c = '\\' then "\\\\"
  else if c = '\n' then "\\n"
  else if c = '\t' then "\\t"
  else if c = '\r' then "\\r"
  else if c = Char.ofNat 8 then "\\b"
  else if c = Char.ofNat 12 then "\\f"
  else if c.val < 32 then
    "\\u00" ++ String.mk [Nat.digitChar (c.toNat / 16), Nat.digitChar (c.toNat % 16)]
  else String.singleton c

/-- JSON quoting of a string, as performed by `JSON.stringify`. -/
def jsonQuote (s : String) : String :=
  "\"" ++ String.join (s.toList.map jsonEscapeChar) ++ "\""

mutual
/-- Model of the builtin `JSON.stringify`.  `Except.error ()` models the
`TypeError` thrown on a circular structure; `Except.ok none` models the
(undefined) result on an `undefined` argument. -/
def jsonStrV : JsVal → Except Unit (Option String)
  | JsVal.undef => .ok none
  | JsVal.null => .ok (some "null")
  | JsVal.bool b => .ok (some (if b then "true" else "false"))
  | JsVal.num n => .ok (some (intDec n))
  | JsVal.str s => .ok (some (jsonQuote s))
  | JsVal.circular => .error ()
  | JsVal.arr xs =>
    match jsonStrElems xs with
    | .ok parts => .ok (some ("[" ++ joinComma parts ++ "]"))
    | .error e => .error e
  | JsVal.obj fs =>
    match jsonStrFields fs with
    | .ok parts => .ok (some ("\x7b" ++ joinComma parts ++ "\x7d"))
    | .error e => .error e

/-- Serialization of array elements: an `undefined` element renders as
`null`, per the `JSON.stringify` contract. -/
def jsonStrElems : List JsVal → Except Unit (List String)
  | [] => .ok []
  | x :: xs =>
    match jsonStrV x, jsonStrElems xs with
    | .ok r, .ok rs => .ok ((r.getD "null") :: rs)
    | .error e, _ => .error e
    | .ok _, .error e => .error e

/-- Serialization of object fields: a field whose value serializes to
`undefined` is omitted, per the `JSON.stringify` contract. -/
def jsonStrFields : List (String × JsVal) → Except Unit (List String)
  | [] => .ok []
  | (k, v) :: fs =>
    match jsonStrV v, jsonStrFields fs with
    | .ok (some s), .ok rs => .ok ((jsonQuote k ++ ":" ++ s) :: rs)
    | .ok none, .ok rs => .ok rs
    | .error e, _ => .error e
    | .ok _, .error e => .error e
end

mutual
/-- Model of the builtin string coercion `String(v)` (also the coercion a
template literal performs): arrays join their coerced elements with commas,
plain objects render as "[object Object]". -/
def stringCoerce : JsVal → String
  | JsVal.undef => "undefined"
  | JsVal.null => "null"
  | JsVal.bool b => if b then "true" else "false"
  | JsVal.num n => intDec n
  | JsVal.str s => s
  | JsVal.arr xs => joinComma (coerceElems xs)
  | JsVal.obj _ => "[object Object]"
  | JsVal.circular => "[object Object]"

/-- Coercion of array elements for `Array.prototype.toString`: `null` and
`undefined` elements render as the empty string. -/
def coerceElems : List JsVal → List String
  | [] => []
  | x :: xs =>
    (match x with
     | JsVal.null => ""
     | JsVal.undef => ""
     | _ => stringCoerce x) :: coerceElems xs
end

/-- JSON whitespace predicate. -/
def isJsonWs (c : Char) : Bool :=
  c = ' ' ∨ c = '\n' ∨ c = '\t' ∨ c = '\r'

/-- Skip leading JSON whitespace. -/
def skipWs (cs : List Char) : List Char := cs.dropWhile isJsonWs

/-- The `LEFT CURLY BRACKET` character. -/
def lbrace : Char := Char.ofNat 123

/-- The `RIGHT CURLY BRACKET` character. -/
def rbrace : Char := Char.ofNat 125

/-- Hex digit value, for `\uXXXX` escapes. -/
def hexVal (c : Char) : Option Nat :=
  if '0' ≤ c ∧ c ≤ '9' then some (c.toNat - 48)
  else if 'a' ≤ c ∧ c ≤ 'f' then some (c.toNat - 87)
  else if 'A' ≤ c ∧ c ≤ 'F' then some (c.toNat - 55)
  else none

/-- Parse the body of a JSON string (the opening quote already consumed),
handling the escape sequences accepted by `JSON.parse` and rejecting raw
control characters. -/
def pStringChars (cs : List Char) (acc : List Char) : Option (String × List Char) :=
  match cs with
  | [] => none
  | c :: rest =>
    if c = '"' then some (String.mk acc.reverse, rest)
    else if c = '\\' then
      match rest with
      | [] => none
      | e :: rest2 =>
        if e = '"' then pStringChars rest2 ('"' :: acc)
        else if e = '\\' then pStringChars rest2 ('\\' :: acc)
        else if e = '/' then pStringChars rest2 ('/' :: acc)
        else if e = 'n' then pStringChars rest2 ('\n' :: acc)
        else if e = 't' then pStringChars rest2 ('\t' :: acc)
        else if e = 'r' then pStringChars rest2 ('\r' :: acc)
        else if e = 'b' then pStringChars rest2 (Char.ofNat 8 :: acc)
        else if e = 'f' then pStringChars rest2 (Char.ofNat 12 :: acc)
        else if e = 'u' then
          match rest2 with
          | h1 :: h2 :: h3 :: h4 :: rest3 =>
            match hexVal h1, hexVal h2, hexVal h3, hexVal h4 with
            | some a, some b, some c2, some d =>
              pStringChars rest3 (Char.ofNat (((a * 16 + b) * 16 + c2) * 16 + d) :: acc)
            | _, _, _, _ => none
          | _ => none
        else none
    else if c.val < 32 then none
    else pStringChars rest (c :: acc)

/-- Parse a run of decimal digits into a natural number. -/
def pDigits (cs : List Char) (acc : Nat) (seen : Bool) : Option (Nat × List Char) :=
  match cs with
  | [] => if seen then some (acc, []) else none
  | c :: rest =>
    if c.isDigit then pDigits rest (acc * 10 + (c.toNat - 48)) true
    else if seen then some (acc, cs) else none

/-- Parse a JSON integer literal with the `0 | [1-9][0-9]*` leading rule.
Fractional and exponent forms are outside this model (the protocol only
carries integers) and make the parse fail. -/
def pNumber (cs : List Char) : Option (JsVal × List Char) :=
  let stripped := match cs with
    | c :: rest => if c = '-' then (true, rest) else (false, cs)
    | [] => (false, ([] : List Char))
  match stripped with
  | (neg, cs1) =>
    match cs1 with
    | [] => none
    | c :: rest =>
      if c = '0' then
        match rest with
        | [] => some (JsVal.num 0, [])
        | d :: _ =>
          if d.isDigit ∨ d = '.' ∨ d = 'e' ∨ d = 'E' then none
          else some (JsVal.num 0, rest)
      else if c.isDigit then
        match pDigits (c :: rest) 0 false with
        | none => none
        | some (n, rest2) =>
          match rest2 with
          | [] => some (JsVal.num (if neg then -(n : Int) else (n : Int)), [])
          | d :: _ =>
            if d = '.' ∨ d = 'e' ∨ d = 'E' then none
            else some (JsVal.num (if neg then -(n : Int) else (n : Int)), rest2)
      else none

/-- Assignment into a parsed JSON object: JavaScript keeps the position of
the first occurrence of a key and overwrites its value on a duplicate. -/
def recordSetJ (acc : List (String × JsVal)) (k : String) (v : JsVal) :
    List (String × JsVal) :=
  if acc.any (fun p => p.1 == k) then
    acc.map (fun p => if p.1 == k then (p.1, v) else p)
  else acc ++ [(k, v)]

mutual
/-- Fuel-indexed recursive-descent parser for one JSON value, modelling the
builtin `JSON.parse`.  The fuel is a technical bound; `jsonParse` below
supplies more fuel than any input can consume. -/
def pVal (fuel : Nat) (cs0 : List Char) : Option (JsVal × List Char) :=
  match fuel with
  | 0 => none
  | Nat.succ f =>
    match skipWs cs0 with
    | [] => none
    | c :: rest =>
      if c = lbrace then
        match skipWs rest with
        | [] => none
        | d :: rest2 =>
          if d = rbrace then some (JsVal.obj [], rest2)
          else pMembers f (d :: rest2) []
      else if c = '[' then
        match skipWs rest with
        | [] => none
        | d :: rest2 =>
          if d = ']' then some (JsVal.arr [], rest2)
          else pElems f (d :: rest2) []
      else if c = '"' then
        match pStringChars rest [] with
        | some (s, rest2) => some (JsVal.str s, rest2)
        | none => none
      else if c = 't' then
        match rest with
        | 'r' :: 'u' :: 'e' :: rest2 => some (JsVal.bool true, rest2)
        | _ => none
      else if c = 'f' then
        match rest with
        | 'a' :: 'l' :: 's' :: 'e' :: rest2 => some (JsVal.bool false, rest2)
        | _ => none
      else if c = 'n' then
        match rest with
        | 'u' :: 'l' :: 'l' :: rest2 => some (JsVal.null, rest2)
        | _ => none
      else pNumber (c :: rest)

/-- Parse the members of a JSON object after its opening brace. -/
def pMembers (fuel : Nat) (cs : List Char) (acc : List (String × JsVal)) :
    Option (JsVal × List Char) :=
  match fuel with
  | 0 => none
  | Nat.succ f =>
    match skipWs cs with
    | '"' :: rest =>
      match pStringChars rest [] with
      | some (k, rest2) =>
        match skipWs rest2 with
        | ':' :: rest3 =>
          match pVal f rest3 with
          | some (v, rest4) =>
            match skipWs rest4 with
            | ',' :: rest5 => pMembers f rest5 (recordSetJ acc k v)
            | d :: rest5 =>
              if d = rbrace then some (JsVal.obj (recordSetJ acc k v), rest5)
              else none
            | [] => none
          | none => none
        | _ => none
      | none => none
    | _ => none

/-- Parse the elements of a JSON array after its opening bracket. -/
def pElems (fuel : Nat) (cs : List Char) (acc : List JsVal) :
    Option (JsVal × List Char) :=
  match fuel with
  | 0 => none
  | Nat.succ f =>
    match pVal f cs with
    | some (v, rest) =>
      match skipWs rest with
      | ',' :: rest2 => pElems f rest2 (acc ++ [v])
      | ']' :: rest2 => some (JsVal.arr (acc ++ [v]), rest2)
      | _ => none
    | none => none
end

/-- Model of the builtin `JSON.parse`: `none` models the thrown
`SyntaxError`.  Trailing non-whitespace input is rejected, as the builtin
does. -/
def jsonParse (s : String) : Option JsVal :=
  match pVal (s.length + 1) s.toList with
  | some (v, rest) => if (skipWs rest).isEmpty then some v else none
  | none => none

/-- Tag structure for AO messages, from `AOProcess.ts`.  The `value` field is
declared `string` in the source, but `toString` can evaluate to `undefined`
at runtime (for an `undefined` input), so the model keeps it optional;
`none` is the JavaScript `undefined`. -/
structure AOMessageTag where
  name : String
  value : Option String
deriving Repr

/-- A single response message.  `Tags` and `Data` may be absent
(JavaScript `undefined`). -/
structure RespMessage where
  Tags : Option (List AOMessageTag)
  Data : Option String
deriving Repr

/-- The `MessageResult` shape returned by the remote process.  `Output` and
`Spawns` are never inspected by any of the embedded functions and are
omitted.  `Error` is modelled as an optional string (the shape the
specification gives it and the shape every consumer treats it as). -/
structure MessageResult where
  Error : Option String
  Messages : Option (List RespMessage)
deriving Repr

/-- JavaScript truthiness of an optional string (`undefined` and `""` are
falsy). -/
def strTruthy (s : Option String) : Bool :=
  match s with
  | none => false
  | some s => s ≠ ""

/-- A decoded tag record: the JavaScript object built by folding a tag
sequence.  A `none` value is a property present with value `undefined`. -/
abbrev TagRecord := List (String × Option String)

/-- Property assignment `acc[name] = value`: overwrite in place when the key
exists, append otherwise. -/
def recordSet (acc : TagRecord) (k : String) (v : Option String) : TagRecord :=
  if acc.any (fun p => p.1 == k) then
    acc.map (fun p => if p.1 == k then (p.1, v) else p)
  else acc ++ [(k, v)]

/-- Property read `rec[name]`: JavaScript yields `undefined` both for an
absent property and for one stored as `undefined`. -/
def recordGet (r : TagRecord) (k : String) : Option String :=
  match r.find? (fun p => p.1 == k) with
  | some p => p.2
  | none => none

/-- The JavaScript `in` operator: property presence. -/
def recordHas (r : TagRecord) (k : String) : Bool :=
  r.any (fun p => p.1 == k)

/-- The tag fold `tags.reduce((acc, tag) => { acc[tag.name] = tag.value;
return acc }, {})`, written identically in `AOProcess.getTagsFromMessage`
and in `hb.extractMessage`; later tags overwrite earlier ones with the same
name. -/
def tagsToRecord (ts : List AOMessageTag) : TagRecord :=
  ts.foldl (fun acc t => recordSet acc t.name t.value) []

namespace AOProcess

/-- Embedding of `AOProcess.toString`.  The source wraps `JSON.stringify`
in a `try`/`catch` whose handler returns `String(value)`, so the function
as a whole never throws; its result is `none` exactly when it evaluates to
`undefined` (which happens only for an `undefined` argument, where
`JSON.stringify` returns `undefined` without throwing). -/
def toString (v : JsVal) : Option String :=
  match v with
  | JsVal.str s => some s
  | JsVal.num n => some (intDec n)
  | _ =>
    match jsonStrV v with
    | .ok r => r
    | .error _ => some (stringCoerce v)

/-- Embedding of `AOProcess.obj2tags`: iterate the mapping in insertion
order, stringifying each value. -/
def obj2tags (obj : List (String × JsVal)) : List AOMessageTag :=
  obj.map (fun p => ⟨p.1, toString p.2⟩)

/-- Embedding of `AOProcess.getTagsFromMessage`: the optional chain
`message?.Messages?.[index]?.Tags?.reduce(...)`; any missing link yields
`undefined`. -/
def getTagsFromMessage (message : Option MessageResult) (index : Nat) :
    Option TagRecord :=
  match message with
  | none => none
  | some m =>
    match m.Messages with
    | none => none
    | some msgs =>
      match msgs[index]? with
      | none => none
      | some msg =>
        match msg.Tags with
        | none => none
        | some ts => some (tagsToRecord ts)

/-- Raw `data` read of `getDataFromMessage`: the optional chain
`message?.Messages?.[index]?.Data`; any missing link yields `undefined`. -/
def rawDataAt (message : Option MessageResult) (index : Nat) : Option String :=
  match message with
  | none => none
  | some m =>
    match m.Messages with
    | none => none
    | some msgs =>
      match msgs[index]? with
      | none => none
      | some msg => msg.Data

/-- Embedding of `AOProcess.getDataFromMessage`: `JSON.parse` the raw data
inside a `try`/`catch` whose handler returns the raw value unchanged.  A
`none` result is the JavaScript `undefined` (no message/data at that index:
`JSON.parse(undefined)` throws and the raw `undefined` is returned). -/
def getDataFromMessage (message : Option MessageResult) (index : Nat) :
    Option JsVal :=
  match rawDataAt message index with
  | none => none
  | some s =>
    match jsonParse s with
    | some v => some v
    | none => some (JsVal.str s)

/-- The two throw sites of `AOProcess.handleResult`, kept distinct in the
model: `remote` is `throw new Error(this.toString(msgErr))`, `status` is
the non-200 `Status` throw carrying the interpolated message. -/
inductive HRErr where
  | remote (msg : String)
  | status (msg : String)
deriving DecidableEq, Repr

/-- Coercion a template literal applies to an optional value (`undefined`
renders as the string "undefined"). -/
def templateCoerce (v : Option JsVal) : String :=
  match v with
  | none => "undefined"
  | some v => stringCoerce v

/-- Embedding of `AOProcess.handleResult` (the development-mode logging is
omitted as pure output).  The `msgType`/request-`tags`/`data` parameters of
the source feed only that logging and are dropped. -/
def handleResult (result : MessageResult) (checkStatus : Bool) :
    Except HRErr Unit :=
  if strTruthy result.Error then
    Except.error (HRErr.remote (result.Error.getD ""))
  else
    match getTagsFromMessage (some result) 0 with
    | none => Except.ok ()
    | some resultTags =>
      if checkStatus ∧ recordHas resultTags "Status" ∧
          recordGet resultTags "Status" ≠ some "200" then
        Except.error (HRErr.status
          ((templateCoerce ((recordGet resultTags "Status").map JsVal.str)) ++ " " ++
            templateCoerce (getDataFromMessage (some result) 0)))
      else Except.ok ()

/-- An error escaping `AOProcess.execute`: either the transport layer
failed, or `handleResult` threw. -/
inductive ClientErr where
  | net (e : JsError)
  | hr (e : HRErr)
deriving DecidableEq, Repr

/-- Embedding of `AOProcess.execute` from the settled network outcome
onwards: envelope construction and the `dryrun`/`message` transport are
external and enter as `netResult`; the source then runs `handleResult` and
returns the raw result, rethrowing anything `handleResult` throws. -/
def execute (netResult : Except JsError MessageResult) (checkStatus : Bool) :
    Except ClientErr MessageResult :=
  match netResult with
  | .error e => .error (ClientErr.net e)
  | .ok r =>
    match handleResult r checkStatus with
    | .error e => .error (ClientErr.hr e)
    | .ok _ => .ok r

end AOProcess

/-- Embedding of `extractMessage` from `hb.ts`:

    if (!msg || !msg.Messages) throw new Error("Invalid message format");
    if (idx < 0 || idx >= msg.Messages.length) throw new Error("Index out of bounds");
    const data = msg.Messages[idx];
    return { tags: data.Tags.reduce(...), data: data.Data };

A missing `Tags` field makes the `.reduce` call throw a `TypeError` (the
third error arm); an empty `Messages` array is truthy in JavaScript and
passes the first guard. -/
def extractMessage (msg : Option MessageResult) (idx : Int) :
    Except JsError (TagRecord × Option String) :=
  match msg with
  | none => .error (JsError.error "Invalid message format")
  | some m =>
    match m.Messages with
    | none => .error (JsError.error "Invalid message format")
    | some msgs =>
      if idx < 0 ∨ (msgs.length : Int) ≤ idx then
        .error (JsError.error "Index out of bounds")
      else
        match msgs[idx.toNat]? with
        | none => .error (JsError.typeError "index unreachable")
        | some dataMsg =>
          match dataMsg.Tags with
          | none => .error (JsError.typeError "reduce of undefined")
          | some ts => .ok (tagsToRecord ts, dataMsg.Data)

/-- First truthy of `a || b || c` over JavaScript strings (empty strings
and `undefined` are falsy), as in `tags.Error || data || "Unknown error"`. -/
def firstTruthyStr (a b : Option String) (c : String) : String :=
  if strTruthy a then a.getD "" else if strTruthy b then b.getD "" else c

/-- Embedding of `receiveTask` from `utils/request.ts`, as the continuation
applied to the settled `requestHB` response (the transport itself is
external and enters through the loop environment below):

    if (msg.Error) throw new Error(msg.Error);
    const { tags, data } = extractMessage(msg, 0);
    if (tags.Code === "200") { return msg.Messages; }
    else if (tags.Code === "403") {
      return msg.Error("Oracle not authorized. ...");
      process.exit(1);
    } else if (tags.Code === "204") {
      throw new Error("No pending tasks available");
    } else { throw new Error(tags.Error || data || "Unknown error"); }
    ... .then(messages => JSON.parse(messages[0].Data))

In the 403 branch `msg.Error` is necessarily falsy (the guard on the first
line already threw otherwise), so the call expression `msg.Error(...)`
always throws `TypeError: msg.Error is not a function`, and the
`process.exit(1)` on the following line is unreachable — the embedding
therefore has no exit in this function. -/
def receiveTask (msg : MessageResult) : Except JsError JsVal :=
  if strTruthy msg.Error then .error (JsError.error (msg.Error.getD ""))
  else
    match extractMessage (some msg) 0 with
    | .error e => .error e
    | .ok (tags, data) =>
      if recordGet tags "Code" = some "200" then
        match msg.Messages with
        | some (m0 :: _) =>
          match m0.Data with
          | some d =>
            match jsonParse d with
            | some v => .ok v
            | none => .error JsError.parseFail
          | none => .error JsError.parseFail
        | _ => .error (JsError.typeError "messages unreachable")
      else if recordGet tags "Code" = some "403" then
        .error (JsError.typeError "msg.Error is not a function")
      else if recordGet tags "Code" = some "204" then
        .error (JsError.error "No pending tasks available")
      else
        .error (JsError.error (firstTruthyStr (recordGet tags "Error") data "Unknown error"))

/-- JavaScript truthiness of a `JsVal` (`NaN` does not occur in the model). -/
def jsTruthy (v : JsVal) : Bool :=
  match v with
  | JsVal.undef => false
  | JsVal.null => false
  | JsVal.bool b => b
  | JsVal.num n => n ≠ 0
  | JsVal.str s => s ≠ ""
  | JsVal.arr _ => true
  | JsVal.obj _ => true
  | JsVal.circular => true

/-- Property access on a parsed task object: `undefined` on a non-object or
a missing key (the `null`/`undefined` receiver case is handled separately
at the access site). -/
def objGet (v : JsVal) (k : String) : JsVal :=
  match v with
  | JsVal.obj fs =>
    match fs.find? (fun p => p.1 == k) with
    | some p => p.2
    | none => JsVal.undef
  | _ => JsVal.undef

/-- The default inference configuration of `index.ts`:
`JSON.stringify({ n_gpu_layers: 48, ctx_size: 20480 })`. -/
def defaultConfigStr : String := "\x7b\"n_gpu_layers\":48,\"ctx_size\":20480\x7d"

/-- One calendar of network outcomes for a single loop iteration of `main`
in `index.ts`: the awaited results of `hasPendingTask()`, of the
`Get-Pending-Task` transport (`requestHB`), of the inference HTTP GET
(`axios`), and of the `Task-Response` transport. -/
structure LoopEnv where
  hasPending : Except JsError Bool
  fetchResp : Except JsError MessageResult
  inferHttp : Except String String
  submitResp : Except JsError MessageResult

/-- Observable calls issued by one loop iteration, in order. -/
inductive Event where
  | checkPending
  | fetchCall (nodeId : String)
  | inferCall (prompt : String) (config : JsVal)
  | submitCall (nodeId : String) (ref : JsVal) (output : String)
deriving Repr

/-- Embedding of `runHyperBeamInference` given the settled `axios` outcome:
a transport failure is wrapped as
`new Error("HyperBEAM inference failed: " + message)`. -/
def runHyperBeamInference (outcome : Except String String) :
    Except JsError String :=
  match outcome with
  | .ok body => .ok body
  | .error m => .error (JsError.error ("HyperBEAM inference failed: " ++ m))

/-- The `try` block of one iteration of `main`'s `while (true)` loop in
`index.ts`: check `hasPendingTask`, fetch via `receiveTask`, run inference,
submit.  Returns the calls issued and the body outcome.  The field accesses
`task.ref` / `task.prompt.substring(0, 50)` performed by the logging lines
throw a `TypeError` when the parsed task is `null`/`undefined` or its
`prompt` is not a string, exactly as in the source. -/
def loopBody (nodeId : String) (env : LoopEnv) :
    List Event × Except JsError Unit :=
  match env.hasPending with
  | .error e => ([Event.checkPending], .error e)
  | .ok has =>
    if !has then ([Event.checkPending], .ok ())
    else
      match env.fetchResp with
      | .error e => ([Event.checkPending, Event.fetchCall nodeId], .error e)
      | .ok resp =>
        match receiveTask resp with
        | .error e => ([Event.checkPending, Event.fetchCall nodeId], .error e)
        | .ok task =>
          match task with
          | JsVal.null =>
            ([Event.checkPending, Event.fetchCall nodeId],
              .error (JsError.typeError "cannot read properties of null"))
          | JsVal.undef =>
            ([Event.checkPending, Event.fetchCall nodeId],
              .error (JsError.typeError "cannot read properties of undefined"))
          | _ =>
            match objGet task "prompt" with
            | JsVal.str p =>
              let cfgRaw := objGet task "config"
              let cfg := if jsTruthy cfgRaw then cfgRaw else JsVal.str defaultConfigStr
              match runHyperBeamInference env.inferHttp with
              | .error e =>
                ([Event.checkPending, Event.fetchCall nodeId, Event.inferCall p cfg],
                  .error e)
              | .ok output =>
                match env.submitResp with
                | .error e =>
                  ([Event.checkPending, Event.fetchCall nodeId, Event.inferCall p cfg,
                     Event.submitCall nodeId (objGet task "ref") output],
                    .error e)
                | .ok _ =>
                  ([Event.checkPending, Event.fetchCall nodeId, Event.inferCall p cfg,
                     Event.submitCall nodeId (objGet task "ref") output],
                    .ok ())
            | _ =>
              ([Event.checkPending, Event.fetchCall nodeId],
                .error (JsError.typeError "substring is not a function"))

/-- Result of one full loop iteration: the calls issued, the sleep duration
before the next iteration, the exit taken (if any), and the error the
`catch` block absorbed (if any). -/
structure IterResult where
  events : List Event
  wait : Nat
  exited : Option Nat
  caughtError : Option JsError
deriving Repr

/-- One iteration of `main`'s loop, `try`/`catch` included: the happy path
sleeps `pollInterval` at the end of the `try` block (also in the
`continue` branch when nothing is pending), and the `catch` block logs and
sleeps the same `pollInterval`.  No statement reachable inside the loop
calls `process.exit`, so `exited` is never set. -/
def loopIter (pollInterval : Nat) (nodeId : String) (env : LoopEnv) : IterResult :=
  match loopBody nodeId env with
  | (evs, .ok _) => ⟨evs, pollInterval, none, none⟩
  | (evs, .error e) => ⟨evs, pollInterval, none, some e⟩

/-- A run of consecutive iterations under a calendar of environments. -/
def runLoop (pollInterval : Nat) (nodeId : String) (envs : List LoopEnv) :
    List IterResult :=
  envs.map (loopIter pollInterval nodeId)

/-- Dispatch on `resultTags.Code` performed by the older generation of
`main` (the `AOProcess`-based implementation shipped in this repository):
`200` processes the task, `204` logs and falls through, `403` logs and
calls `process.exit(1)`, anything else logs a warning. -/
inductive OldDispatch where
  | handleTask
  | noWork
  | exitProcess (code : Nat)
  | warnUnexpected
deriving DecidableEq, Repr

/-- The `Code` branch of the older `main`, translated arm by arm. -/
def oldMainDispatch (resultTags : TagRecord) : OldDispatch :=
  if recordGet resultTags "Code" = some "200" then OldDispatch.handleTask
  else if recordGet resultTags "Code" = some "204" then OldDispatch.noWork
  else if recordGet resultTags "Code" = some "403" then OldDispatch.exitProcess 1
  else OldDispatch.warnUnexpected

/-- Comparison scaffold for the round-trip claim: re-inject a decoded tag
value into the dynamic value universe (`undefined` stays `undefined`, a
string stays a string), so that `decode(encode(m))` and `m` live in the
same type. -/
def tagValToJs (v : Option String) : JsVal :=
  match v with
  | none => JsVal.undef
  | some s => JsVal.str s

/-- The round trip of the tag codec: encode a mapping with
`AOProcess.obj2tags`, decode the resulting tag sequence with the
`getTagsFromMessage` fold, and view the result as a mapping of dynamic
values again. -/
def tagRoundtrip (m : List (String × JsVal)) : List (String × JsVal) :=
  (tagsToRecord (AOProcess.obj2tags m)).map (fun q => (q.1, tagValToJs q.2))

/-- The `!msg || !msg.Messages` guard of `extractMessage`: the `messages`
field is missing entirely. -/
def messagesMissing (msg : Option MessageResult) : Bool :=
  match msg with
  | none => true
  | some m => m.Messages.isNone

/-- The hypothesis of the status-check claim, on the message at index 0:
either the decoded first-message tags are unavailable or lack a `Status`
entry, or that entry is exactly "200". -/
def firstStatusOk (result : MessageResult) : Bool :=
  match AOProcess.getTagsFromMessage (some result) 0 with
  | none => true
  | some tags =>
    !(recordHas tags "Status") || (recordGet tags "Status" == some "200")

/-- A `Get-Pending-Task` response whose first message carries tag
`Code = "403"` and no error field. -/
def resp403 : MessageResult :=
  ⟨none, some [⟨some [⟨"Code", some "403"⟩], some ""⟩]⟩

/-- A `Get-Pending-Task` response whose first message carries tag
`Code = "204"`. -/
def resp204 : MessageResult :=
  ⟨none, some [⟨some [⟨"Code", some "204"⟩], some ""⟩]⟩

/-- An empty settled result, used where a submit outcome is needed. -/
def emptyResult : MessageResult := ⟨none, some []⟩

/-- A loop environment whose fetch settles to the `403` response. -/
def env403 : LoopEnv := ⟨.ok true, .ok resp403, .ok "out", .ok emptyResult⟩

/-- A loop environment whose fetch settles to the `204` response. -/
def env204 : LoopEnv := ⟨.ok true, .ok resp204, .ok "out", .ok emptyResult⟩

/-- The task payload of the functional-correctness scenario. -/
def c4payload : String := "\x7b\"ref\":\"t1\",\"prompt\":\"hi\"\x7d"

/-- A result carrying a non-empty `Error` and a non-200 `Status` tag at
index 0 — exercising the precedence of the error check. -/
def w2 : MessageResult :=
  ⟨some "boom", some [⟨some [⟨"Status", some "500"⟩], some "d"⟩]⟩

/-- A result whose first message has no `Status` tag while its second
message carries `Status = "500"`. -/
def w10 : MessageResult :=
  ⟨none, some [⟨some [⟨"Code", some "200"⟩], some "d0"⟩,
               ⟨some [⟨"Status", some "500"⟩], some "d1"⟩]⟩

/-- A message result whose single message carries the given raw data. -/
def msgWithData (d : String) : MessageResult :=
  ⟨none, some [⟨some [], some d⟩]⟩

/-- A loop environment whose pending-check transport fails. -/
def envCheckFail : LoopEnv :=
  ⟨.error (JsError.error "network down"), .ok emptyResult, .ok "out", .ok emptyResult⟩

/-- C1.  The claim states that a `Get-Pending-Task` response with tag
`Code = "403"` makes the process terminate with a non-zero exit, without
submitting and without further iterations.  The code violates this: in
`receiveTask` the branch executes `return msg.Error("Oracle not
authorized...")` where `msg.Error` is necessarily falsy (the guard on the
first line of the handler has already thrown otherwise), so the call
throws `TypeError: msg.Error is not a function` and the `process.exit(1)`
on the next line is unreachable.  The loop's `catch` then absorbs the
`TypeError` and the iteration ends with the ordinary fixed-interval wait:
the process does not terminate and the authorization failure is retried
forever.  The final conjunct shows the older `AOProcess`-based `main` of
this repository did dispatch `Code = "403"` to `process.exit(1)`, which —
together with the unreachable exit in the current code — identifies the
claimed behaviour as the intent and the current code as the slip. -/
theorem fetch403_is_caught_and_retried_not_fatal (p : Nat) (n : String) :
    receiveTask resp403 =
      .error (JsError.typeError "msg.Error is not a function") ∧
    (loopIter p n env403).exited = none ∧
    (loopIter p n env403).wait = p ∧
    (loopIter p n env403).events = [Event.checkPending, Event.fetchCall n] ∧
    (loopIter p n env403).caughtError =
      some (JsError.typeError "msg.Error is not a function") ∧
    oldMainDispatch (tagsToRecord [⟨"Code", some "403"⟩]) =
      OldDispatch.exitProcess 1 :=
  ⟨rfl, rfl, rfl, rfl, rfl, rfl⟩

/-- C2.  A result with a non-empty `error` field makes `handleResult` (and
hence `execute`) fail with exactly that message, tagged as the remote-error
throw site — not the status throw site — for either value of `checkStatus`:
the error check precedes the `Status` check unconditionally. -/
theorem nonempty_error_fails_before_status_check
    (result : MessageResult) (checkStatus : Bool) (s : String)
    (h1 : result.Error = some s) (h2 : s ≠ "") :
    AOProcess.handleResult result checkStatus =
      .error (AOProcess.HRErr.remote s) ∧
    AOProcess.execute (.ok result) checkStatus =
      .error (AOProcess.ClientErr.hr (AOProcess.HRErr.remote s)) := by
  have hr : AOProcess.handleResult result checkStatus =
      .error (AOProcess.HRErr.remote s) := by
    unfold AOProcess.handleResult
    rw [h1]
    simp [strTruthy, h2]
  exact ⟨hr, by simp [AOProcess.execute, hr]⟩

/-- Witness for C2 at a concrete input that also carries a non-200
`Status` tag, for both values of `checkStatus`. -/
theorem nonempty_error_fails_before_status_check_witness :
    AOProcess.execute (.ok w2) true =
      .error (AOProcess.ClientErr.hr (AOProcess.HRErr.remote "boom")) ∧
    AOProcess.execute (.ok w2) false =
      .error (AOProcess.ClientErr.hr (AOProcess.HRErr.remote "boom")) :=
  ⟨(nonempty_error_fails_before_status_check w2 true "boom" rfl (by decide)).2,
   (nonempty_error_fails_before_status_check w2 false "boom" rfl (by decide)).2⟩

/-- C3, counterexample.  The claim states that a fetch response with
`Code = "204"` is "not an error" and falls through "silently, without
raising".  In the current `receiveTask` that branch executes
`throw new Error("No pending tasks available")`: the condition is raised
as an error. -/
theorem fetch204_raises_error_counterexample :
    receiveTask resp204 = .error (JsError.error "No pending tasks available") :=
  rfl

/-- C3, amended.  A fetch response with `Code = "204"` makes `receiveTask`
throw `Error("No pending tasks available")`; the loop's top-level `catch`
absorbs it (logging it as a loop error), no submit is attempted, the
process does not exit, and the loop proceeds to the same fixed-interval
idle wait as the happy path. -/
theorem fetch204_error_caught_same_interval (p : Nat) (n : String) :
    (loopIter p n env204).exited = none ∧
    (loopIter p n env204).wait = p ∧
    (loopIter p n env204).caughtError =
      some (JsError.error "No pending tasks available") ∧
    (loopIter p n env204).events = [Event.checkPending, Event.fetchCall n] :=
  ⟨rfl, rfl, rfl, rfl⟩

/-- C4.  For every fetch response whose first message decodes to a tag
record with `Code = "200"` and carries the payload
`{"ref":"t1","prompt":"hi"}` as its raw data (and no transport error), one
loop iteration checks for pending work, issues the fetch, calls inference
with prompt "hi" (and, the payload carrying no `config`, the fixed default
configuration), and — inference having succeeded with some `out` — issues
the submit call carrying the node id, reference "t1" and `out`, in exactly
the order fetch, then infer, then submit.  The submit transport outcome is
arbitrary: the call itself is issued either way. -/
theorem fetch200_fetch_infer_submit_order
    (p : Nat) (n out : String) (ts : List AOMessageTag)
    (rest : List RespMessage) (submitR : Except JsError MessageResult)
    (hCode : recordGet (tagsToRecord ts) "Code" = some "200") :
    (loopIter p n ⟨.ok true,
        .ok ⟨none, some (⟨some ts, some c4payload⟩ :: rest)⟩,
        .ok out, submitR⟩).events =
      [Event.checkPending, Event.fetchCall n,
       Event.inferCall "hi" (JsVal.str defaultConfigStr),
       Event.submitCall n (JsVal.str "t1") out] := by
  have hparse : jsonParse c4payload =
      some (JsVal.obj [("ref", JsVal.str "t1"), ("prompt", JsVal.str "hi")]) := rfl
  have hEM : extractMessage
      (some ⟨none, some (⟨some ts, some c4payload⟩ :: rest)⟩) 0 =
      .ok (tagsToRecord ts, some c4payload) := by
    simp [extractMessage]
  have hrt : receiveTask ⟨none, some (⟨some ts, some c4payload⟩ :: rest)⟩ =
      .ok (JsVal.obj [("ref", JsVal.str "t1"), ("prompt", JsVal.str "hi")]) := by
    simp [receiveTask, strTruthy, hEM, hCode, hparse]
  cases submitR <;>
    simp [loopIter, loopBody, hrt, objGet, jsTruthy, runHyperBeamInference]

/-- Witness for C4 at a fully concrete environment. -/
theorem fetch200_fetch_infer_submit_order_witness :
    (loopIter 1000 "node1" ⟨.ok true,
        .ok ⟨none, some (⟨some [⟨"Code", some "200"⟩], some c4payload⟩ :: [])⟩,
        .ok "OUT", .ok emptyResult⟩).events =
      [Event.checkPending, Event.fetchCall "node1",
       Event.inferCall "hi" (JsVal.str defaultConfigStr),
       Event.submitCall "node1" (JsVal.str "t1") "OUT"] :=
  fetch200_fetch_infer_submit_order 1000 "node1" "OUT"
    [⟨"Code", some "200"⟩] [] (.ok emptyResult) rfl

/-- Setting a fresh key appends it to the record. -/
theorem recordSet_append_of_not_mem (acc : TagRecord) (k : String) (v : Option String)
    (h : acc.any (fun p => p.1 == k) = false) :
    recordSet acc k v = acc ++ [(k, v)] := by
  simp [recordSet, h]

/-- Folding a tag sequence with pairwise-distinct names over a record none
of whose keys occur among those names appends the tags as pairs. -/
theorem tagsToRecord_go (ts : List AOMessageTag) (acc : TagRecord)
    (hnd : (ts.map AOMessageTag.name).Nodup)
    (hfresh : ∀ t ∈ ts, acc.any (fun p => p.1 == t.name) = false) :
    ts.foldl (fun a t => recordSet a t.name t.value) acc =
      acc ++ ts.map (fun t => (t.name, t.value)) := by
  induction ts generalizing acc with
  | nil => simp
  | cons t ts ih =>
    simp only [List.map_cons, List.nodup_cons] at hnd
    simp only [List.foldl_cons]
    rw [recordSet_append_of_not_mem _ _ _ (hfresh t (by simp))]
    rw [ih (acc ++ [(t.name, t.value)]) hnd.2 ?_]
    · simp
    · intro t2 ht2
      have hne : ¬(t.name = t2.name) := by
        intro he
        exact hnd.1 (he ▸ List.mem_map_of_mem AOMessageTag.name ht2)
      have hacc := hfresh t2 (by simp [ht2])
      simp [List.any_append, hacc, hne]

/-- Decoding a tag sequence with pairwise-distinct names yields exactly its
name/value pairs, in order. -/
theorem tagsToRecord_nodup (ts : List AOMessageTag)
    (hnd : (ts.map AOMessageTag.name).Nodup) :
    tagsToRecord ts = ts.map (fun t => (t.name, t.value)) := by
  simpa [tagsToRecord] using tagsToRecord_go ts [] hnd (by intro t _; rfl)

/-- C5, counterexample.  The claim states `decode(encode(m)) == m` for every
mapping of string-keyed primitive values.  It fails already on the
primitive-valued mapping `a ↦ true`: encoding stringifies the boolean to
"true", so the decoded mapping holds the string "true", not the boolean
`true`. -/
theorem tag_roundtrip_fails_on_primitive :
    tagRoundtrip [("a", JsVal.bool true)] ≠ [("a", JsVal.bool true)] := by
  intro h
  have h1 : ([("a", JsVal.str "true")] : List (String × JsVal)) =
      [("a", JsVal.bool true)] := h
  have h2 := (Prod.mk.inj (List.cons.inj h1).1).2
  exact JsVal.noConfusion h2

/-- C5, amended.  The round trip `decode(encode(m)) == m` holds for every
mapping with pairwise-distinct string keys whose values are all strings
(in general the decoded mapping carries each value stringified, so only
string values are recovered on the nose). -/
theorem tag_roundtrip_on_string_values (m : List (String × String))
    (hnd : (m.map Prod.fst).Nodup) :
    tagRoundtrip (m.map (fun p => (p.1, JsVal.str p.2))) =
      m.map (fun p => (p.1, JsVal.str p.2)) := by
  unfold tagRoundtrip AOProcess.obj2tags
  have hnames : (((m.map (fun p => (p.1, JsVal.str p.2))).map
      (fun p => AOMessageTag.mk p.1 (AOProcess.toString p.2))).map
      AOMessageTag.name) = m.map Prod.fst := by
    simp [List.map_map, Function.comp]
  have hnodL : (((m.map (fun p => (p.1, JsVal.str p.2))).map
      (fun p => AOMessageTag.mk p.1 (AOProcess.toString p.2))).map
      AOMessageTag.name).Nodup := by
    rw [hnames]; exact hnd
  rw [tagsToRecord_nodup _ hnodL]
  simp [List.map_map, Function.comp, AOProcess.toString, tagValToJs]

/-- Witness for the amended C5 at a concrete two-entry string mapping. -/
theorem tag_roundtrip_on_string_values_witness :
    tagRoundtrip [("x", JsVal.str "1"), ("y", JsVal.str "2")] =
      [("x", JsVal.str "1"), ("y", JsVal.str "2")] :=
  tag_roundtrip_on_string_values [("x", "1"), ("y", "2")] (by decide)

/-- C6.  For every environment (every combination of check, fetch,
inference and submit outcomes), one loop iteration never exits the
process, ends in the same fixed `pollInterval` wait on the happy path and
on the failure path alike, and whenever the loop body raises an error the
top-level `catch` absorbs exactly that error.  Across any run of
iterations the waits are identically `pollInterval` — the interval depends
neither on the outcome nor on the iteration count, so there is no
exponential backoff and no jitter.  (In the current code even the 403
branch raises an ordinary exception and is caught — see the C1
theorem — which only strengthens this claim's "every error other than the
fatal authorization case is caught".) -/
theorem loop_errors_caught_fixed_interval (p : Nat) (n : String) :
    (∀ env, (loopIter p n env).exited = none) ∧
    (∀ env, (loopIter p n env).wait = p) ∧
    (∀ env e, (loopBody n env).2 = Except.error e →
      (loopIter p n env).caughtError = some e) ∧
    (∀ envs : List LoopEnv,
      (runLoop p n envs).map IterResult.wait = envs.map (fun _ => p)) := by
  have key : ∀ env, (loopIter p n env).exited = none ∧
      (loopIter p n env).wait = p ∧
      ∀ e, (loopBody n env).2 = Except.error e →
        (loopIter p n env).caughtError = some e := by
    intro env
    rcases hb : loopBody n env with ⟨evs, r⟩
    cases r <;> simp [loopIter, hb]
  refine ⟨fun env => (key env).1, fun env => (key env).2.1,
    fun env => (key env).2.2, ?_⟩
  intro envs
  induction envs with
  | nil => rfl
  | cons a l ih =>
    simp only [runLoop, List.map_cons] at ih ⊢
    exact List.cons_eq_cons.mpr ⟨(key a).2.1, ih⟩

/-- Witness for C6 at a concrete failing environment. -/
theorem loop_errors_caught_fixed_interval_witness :
    (loopIter 500 "node1" envCheckFail).exited = none ∧
    (loopIter 500 "node1" envCheckFail).wait = 500 ∧
    (loopIter 500 "node1" envCheckFail).caughtError =
      some (JsError.error "network down") :=
  ⟨(loop_errors_caught_fixed_interval 500 "node1").1 envCheckFail,
   (loop_errors_caught_fixed_interval 500 "node1").2.1 envCheckFail,
   (loop_errors_caught_fixed_interval 500 "node1").2.2.1 envCheckFail
     (JsError.error "network down") rfl⟩

/-- C7.  `toString` never throws — the source catches the only fallible
step (`JSON.stringify`) internally, so the embedding is a total function —
and behaves per clause: strings pass through unchanged, numbers render in
canonical decimal form, any value on which serialization fails (a
structure containing a reference cycle) falls back to the generic string
coercion `String(v)`, and in particular a circular structure yields
"[object Object]".  The final conjunct records that the result is an
actual string for every input other than `undefined` (where
`JSON.stringify` returns `undefined` without throwing and `toString`
passes that through). -/
theorem tag_stringify_total_spec :
    (∀ s, AOProcess.toString (JsVal.str s) = some s) ∧
    (∀ n : Int, AOProcess.toString (JsVal.num n) = some (intDec n)) ∧
    (∀ v, jsonStrV v = Except.error () →
      AOProcess.toString v = some (stringCoerce v)) ∧
    AOProcess.toString JsVal.circular = some "[object Object]" ∧
    (∀ v, (AOProcess.toString v).isSome = true ∨ v = JsVal.undef) := by
  refine ⟨fun s => rfl, fun n => rfl, ?_, rfl, ?_⟩
  · intro v h
    cases v with
    | undef => simp [jsonStrV] at h
    | null => simp [jsonStrV] at h
    | bool b => simp [jsonStrV] at h
    | num n => simp [jsonStrV] at h
    | str s => simp [jsonStrV] at h
    | circular => rfl
    | arr xs => simp [AOProcess.toString, h]
    | obj fs => simp [AOProcess.toString, h]
  · intro v
    cases v with
    | undef => exact Or.inr rfl
    | null => exact Or.inl rfl
    | bool b => exact Or.inl rfl
    | num n => exact Or.inl rfl
    | str s => exact Or.inl rfl
    | circular => exact Or.inl rfl
    | arr xs =>
      refine Or.inl ?_
      cases hj : jsonStrElems xs <;> simp [AOProcess.toString, jsonStrV, hj]
    | obj fs =>
      refine Or.inl ?_
      cases hj : jsonStrFields fs <;> simp [AOProcess.toString, jsonStrV, hj]

/-- Witness for C7 at concrete inputs, a cyclic structure included. -/
theorem tag_stringify_total_spec_witness :
    AOProcess.toString (JsVal.str "abc") = some "abc" ∧
    AOProcess.toString (JsVal.num (-7)) = some "-7" ∧
    AOProcess.toString (JsVal.obj [("a", JsVal.circular)]) =
      some (stringCoerce (JsVal.obj [("a", JsVal.circular)])) :=
  ⟨tag_stringify_total_spec.1 "abc",
   tag_stringify_total_spec.2.1 (-7),
   tag_stringify_total_spec.2.2.1 (JsVal.obj [("a", JsVal.circular)]) rfl⟩

/-- C8.  `getDataFromMessage` (the spec's `dataOf`) attempts to JSON-parse
the selected message's raw data and, on parse failure, returns the raw
string unchanged; the embedding is a total function because the source
catches the parse failure internally, so no input throws.  In particular
the data "\x7b\"a\":1\x7d" yields the object `a ↦ 1` and the data "plain"
comes back as the string "plain" unchanged. -/
theorem dataOf_json_or_raw :
    (∀ (m : MessageResult) (i : Nat) (raw : String),
      AOProcess.rawDataAt (some m) i = some raw → jsonParse raw = none →
      AOProcess.getDataFromMessage (some m) i = some (JsVal.str raw)) ∧
    AOProcess.getDataFromMessage (some (msgWithData "\x7b\"a\":1\x7d")) 0 =
      some (JsVal.obj [("a", JsVal.num 1)]) ∧
    AOProcess.getDataFromMessage (some (msgWithData "plain")) 0 =
      some (JsVal.str "plain") := by
  refine ⟨?_, rfl, rfl⟩
  intro m i raw h1 h2
  simp [AOProcess.getDataFromMessage, h1, h2]

/-- Witness for C8 on a concrete malformed payload. -/
theorem dataOf_json_or_raw_witness :
    AOProcess.getDataFromMessage (some (msgWithData "notjson")) 0 =
      some (JsVal.str "notjson") :=
  dataOf_json_or_raw.1 (msgWithData "notjson") 0 "notjson" rfl rfl

/-- C9.  `extractMessage` (the spec's `tagsOf`) fails with the
invalid-format error exactly when the `Messages` field is missing entirely
(or the result itself is absent), fails with the index error exactly when
`Messages` is present but no message exists at the requested index (the
index is negative or at least the length), and otherwise — a message with
tags present at the index — decodes that message's tags into the string
record together with its raw data.  (A message present at the index but
lacking a `Tags` array makes the `.reduce` call throw a `TypeError`, which
is neither of the two errors; the two biconditionals account for it.) -/
theorem extractMessage_error_classification
    (msg : Option MessageResult) (idx : Int) :
    (extractMessage msg idx = .error (JsError.error "Invalid message format") ↔
      messagesMissing msg = true) ∧
    (extractMessage msg idx = .error (JsError.error "Index out of bounds") ↔
      ∃ m msgs, msg = some m ∧ m.Messages = some msgs ∧
        (idx < 0 ∨ (msgs.length : Int) ≤ idx)) ∧
    (∀ m msgs rm ts, msg = some m → m.Messages = some msgs →
      ¬(idx < 0 ∨ (msgs.length : Int) ≤ idx) →
      msgs[idx.toNat]? = some rm → rm.Tags = some ts →
      extractMessage msg idx = .ok (tagsToRecord ts, rm.Data)) := by
  refine ⟨?_, ?_, ?_⟩
  · cases msg with
    | none => simp [extractMessage, messagesMissing]
    | some m =>
      cases hM : m.Messages with
      | none => simp [extractMessage, messagesMissing, hM]
      | some msgs =>
        simp only [extractMessage, messagesMissing, hM, Option.isNone_some]
        by_cases hc : idx < 0 ∨ (msgs.length : Int) ≤ idx
        · rw [if_pos hc]; simp
        · rw [if_neg hc]
          rcases hG : msgs[idx.toNat]? with _ | rm
          · simp
          · rcases hT : rm.Tags with _ | ts <;> simp [hT]
  · cases msg with
    | none => simp [extractMessage]
    | some m =>
      cases hM : m.Messages with
      | none =>
        simp only [extractMessage, hM]
        constructor
        · intro h; simp at h
        · rintro ⟨m2, msgs2, hm2, hM2, hc2⟩
          cases hm2
          rw [hM] at hM2
          cases hM2
      | some msgs =>
        simp only [extractMessage, hM]
        by_cases hc : idx < 0 ∨ (msgs.length : Int) ≤ idx
        · rw [if_pos hc]
          constructor
          · intro _; exact ⟨m, msgs, rfl, hM, hc⟩
          · intro _; rfl
        · rw [if_neg hc]
          constructor
          · intro h
            rcases hG : msgs[idx.toNat]? with _ | rm
            · rw [hG] at h; simp at h
            · rw [hG] at h
              rcases hT : rm.Tags with _ | ts
              · simp [hT] at h
              · simp [hT] at h
          · rintro ⟨m2, msgs2, hm2, hM2, hc2⟩
            cases hm2
            rw [hM] at hM2
            injection hM2 with he
            subst he
            exact absurd hc2 hc
  · intro m msgs rm ts hm hM hc hG hT
    subst hm
    simp [extractMessage, hM, hc, hG, hT]

/-- Witness for C9: a missing result, an out-of-range index over an empty
message array, and a successful decode, each through the theorem. -/
theorem extractMessage_error_classification_witness :
    extractMessage none 0 = .error (JsError.error "Invalid message format") ∧
    extractMessage (some emptyResult) 3 =
      .error (JsError.error "Index out of bounds") ∧
    extractMessage (some resp204) 0 =
      .ok (tagsToRecord [⟨"Code", some "204"⟩], some "") :=
  ⟨(extractMessage_error_classification none 0).1.mpr rfl,
   (extractMessage_error_classification (some emptyResult) 3).2.1.mpr
     ⟨emptyResult, [], rfl, rfl, by decide⟩,
   (extractMessage_error_classification (some resp204) 0).2.2 resp204
     [⟨some [⟨"Code", some "204"⟩], some ""⟩]
     ⟨some [⟨"Code", some "204"⟩], some ""⟩
     [⟨"Code", some "204"⟩] rfl rfl (by decide) rfl rfl⟩

/-- C10.  The `Status` check of `handleResult` (hence of `execute`)
inspects only the message at index 0: whenever the first message's decoded
tags are unavailable, lack a `Status` entry, or carry `Status = "200"`, the
call never fails with the status error — for either value of `checkStatus`
and regardless of any `Status` tag carried by a later message (the
hypothesis constrains index 0 only, while the result may hold arbitrary
further messages). -/
theorem status_check_inspects_first_message_only
    (result : MessageResult) (checkStatus : Bool)
    (h : firstStatusOk result = true) :
    ∀ s, AOProcess.handleResult result checkStatus ≠
      Except.error (AOProcess.HRErr.status s) := by
  intro s
  unfold AOProcess.handleResult
  by_cases he : strTruthy result.Error
  · simp [he]
  · simp only [Bool.not_eq_true] at he
    simp only [he, Bool.false_eq_true, if_false]
    rcases hT : AOProcess.getTagsFromMessage (some result) 0 with _ | tags
    · simp
    · unfold firstStatusOk at h
      rw [hT] at h
      simp only [Bool.or_eq_true, Bool.not_eq_true', beq_iff_eq] at h
      rcases h with hHas | hGet
      · simp [hHas]
      · simp [hGet]

/-- Witness for C10 on a concrete result whose first message has no
`Status` tag while its second message carries `Status = "500"`. -/
theorem status_check_inspects_first_message_only_witness :
    AOProcess.handleResult w10 true ≠
      Except.error (AOProcess.HRErr.status "500 d1") :=
  status_check_inspects_first_message_only w10 true (by decide) "500 d1"
